import Mathlib

/-!
Shallow embedding of the gravitational k-d tree library
(`src/entity.rs`, `src/node.rs`, `src/gravtree.rs`).

Rust `f64` values are modelled as real numbers; tuples `(f64, f64, f64)`
become `ℝ × ℝ × ℝ`.  The repository's `utilities` module and top-level
`dimension` module are not present under `src/`; the definitions taken
from them are modelled from the spec and marked as such in their
doc comments.
-/

namespace GravKd

/-- Modelled from the spec: the repository's `dimension` module is not under
`src/`; the spec says the split axis ranges over {X, Y, Z}. -/
inductive Dimension where
  | X
  | Y
  | Z
deriving DecidableEq

/-- `Entity` from `src/entity.rs`: velocity, position, radius, mass, and the
per-body simulation parameters θ and Δt. -/
structure Entity where
  vx : ℝ
  vy : ℝ
  vz : ℝ
  x : ℝ
  y : ℝ
  z : ℝ
  radius : ℝ
  mass : ℝ
  theta : ℝ
  time_step : ℝ

instance : Inhabited Entity := ⟨⟨0, 0, 0, 0, 0, 0, 0, 0, 0, 0⟩⟩

set_option maxHeartbeats 1600000 in
/-- `Node` from `src/node.rs`: a single record with optional split data,
optional children, optional leaf points, and aggregate properties.
Field order follows the Rust struct declaration. -/
inductive Node where
  | mk
    (split_dimension : Option Dimension)
    (split_value : ℝ)
    (left : Option Node)
    (right : Option Node)
    (points : Option (List Entity))
    (center_of_mass : ℝ × ℝ × ℝ)
    (total_mass : ℝ)
    (r_max : ℝ)
    (x_min : ℝ) (x_max : ℝ)
    (y_min : ℝ) (y_max : ℝ)
    (z_min : ℝ) (z_max : ℝ)
    (time_step : ℝ)
    (theta : ℝ)

namespace Node

def split_dimension : Node → Option Dimension
  | .mk sd _ _ _ _ _ _ _ _ _ _ _ _ _ _ _ => sd

def split_value : Node → ℝ
  | .mk _ sv _ _ _ _ _ _ _ _ _ _ _ _ _ _ => sv

def left : Node → Option Node
  | .mk _ _ l _ _ _ _ _ _ _ _ _ _ _ _ _ => l

def right : Node → Option Node
  | .mk _ _ _ r _ _ _ _ _ _ _ _ _ _ _ _ => r

def points : Node → Option (List Entity)
  | .mk _ _ _ _ p _ _ _ _ _ _ _ _ _ _ _ => p

def center_of_mass : Node → ℝ × ℝ × ℝ
  | .mk _ _ _ _ _ c _ _ _ _ _ _ _ _ _ _ => c

def total_mass : Node → ℝ
  | .mk _ _ _ _ _ _ tm _ _ _ _ _ _ _ _ _ => tm

def r_max : Node → ℝ
  | .mk _ _ _ _ _ _ _ rm _ _ _ _ _ _ _ _ => rm

def x_min : Node → ℝ
  | .mk _ _ _ _ _ _ _ _ xn _ _ _ _ _ _ _ => xn

def x_max : Node → ℝ
  | .mk _ _ _ _ _ _ _ _ _ xm _ _ _ _ _ _ => xm

def y_min : Node → ℝ
  | .mk _ _ _ _ _ _ _ _ _ _ yn _ _ _ _ _ => yn

def y_max : Node → ℝ
  | .mk _ _ _ _ _ _ _ _ _ _ _ ym _ _ _ _ => ym

def z_min : Node → ℝ
  | .mk _ _ _ _ _ _ _ _ _ _ _ _ zn _ _ _ => zn

def z_max : Node → ℝ
  | .mk _ _ _ _ _ _ _ _ _ _ _ _ _ zm _ _ => zm

def time_step : Node → ℝ
  | .mk _ _ _ _ _ _ _ _ _ _ _ _ _ _ ts _ => ts

def theta : Node → ℝ
  | .mk _ _ _ _ _ _ _ _ _ _ _ _ _ _ _ th => th

/-- `Node::new` from `src/node.rs`: a node with default (zero / `None`)
values, carrying the given θ and Δt. -/
def new (theta time_step : ℝ) : Node :=
  .mk none 0 none none none (0, 0, 0) 0 0 0 0 0 0 0 0 time_step theta

/-- `Node::as_entity` from `src/node.rs`: position from the center of mass,
mass from the total mass, everything else zero (θ and Δt carried over). -/
def as_entity (n : Node) : Entity :=
  { x := n.center_of_mass.1
    y := n.center_of_mass.2.1
    z := n.center_of_mass.2.2
    vx := 0
    vy := 0
    vz := 0
    mass := n.total_mass
    radius := 0
    theta := n.theta
    time_step := n.time_step }

/-- `Node::max_distance` from `src/node.rs`: the largest side of the node's
bounding box. -/
def max_distance (n : Node) : ℝ :=
  let x_distance := n.x_max - n.x_min
  let y_distance := n.y_max - n.y_min
  let z_distance := n.z_max - n.z_min
  max x_distance (max y_distance z_distance)

/-- `Node::set_max_mins` from `src/node.rs`: overwrite the bounds and `r_max`
with the componentwise union of the children's.  The source unwraps both
children and panics when one is absent; that case is unreachable from the
builder and the node is returned unchanged here. -/
def set_max_mins (n : Node) : Node :=
  match n with
  | .mk sd sv (some l) (some r) pts com tm _ _ _ _ _ _ _ ts th =>
      .mk sd sv (some l) (some r) pts com tm
        (max l.r_max r.r_max)
        (min l.x_min r.x_min) (max l.x_max r.x_max)
        (min l.y_min r.y_min) (max l.y_max r.y_max)
        (min l.z_min r.z_min) (max l.z_max r.z_max)
        ts th
  | n => n

/-- `Node::traverse_tree_helper` from `src/node.rs`: recursively collect the
entities of both subtrees; when the right child is absent, append this
node's own points (the source's `expect` panic on a missing point vector is
unreachable for built trees and is modelled by the empty list). -/
def traverse_tree_helper : Node → List Entity
  | .mk _ _ lft rgt pts _ _ _ _ _ _ _ _ _ _ _ =>
    let to_return : List Entity := []
    let to_return :=
      match lft with
      | some node => to_return ++ traverse_tree_helper node
      | none => to_return
    match rgt with
    | some node => to_return ++ traverse_tree_helper node
    | none => to_return ++ (pts.getD [])

/-- Holds when every leaf (a node carrying a point vector) in the subtree
holds between 1 and `max_pts` bodies inclusive. -/
def leaves_sized (max_pts : ℤ) : Node → Prop
  | .mk _ _ lft rgt pts _ _ _ _ _ _ _ _ _ _ _ =>
    (match pts with
     | some l => 1 ≤ l.length ∧ (l.length : ℤ) ≤ max_pts
     | none => True) ∧
    (match lft with
     | some n => leaves_sized max_pts n
     | none => True) ∧
    (match rgt with
     | some n => leaves_sized max_pts n
     | none => True)

end Node

namespace Entity

/-- `Entity::get_dim` from `src/entity.rs`. -/
def get_dim (self : Entity) (dim : Dimension) : ℝ :=
  match dim with
  | .X => self.x
  | .Y => self.y
  | .Z => self.z

/-- `Entity::distance_squared` from `src/entity.rs`: sum of the squared
coordinate differences. -/
def distance_squared (self other : Entity) : ℝ :=
  let x_dist := (other.x - self.x) * (other.x - self.x)
  let y_dist := (other.y - self.y) * (other.y - self.y)
  let z_dist := (other.z - self.z) * (other.z - self.z)
  x_dist + y_dist + z_dist

/-- `Entity::distance` from `src/entity.rs`. -/
noncomputable def distance (self other : Entity) : ℝ :=
  Real.sqrt (self.distance_squared other)

/-- `Entity::distance_vector` from `src/entity.rs`: the tuple of the squared
coordinate differences (as written in the source). -/
def distance_vector (self other : Entity) : ℝ × ℝ × ℝ :=
  let x_dist := (other.x - self.x) * (other.x - self.x)
  let y_dist := (other.y - self.y) * (other.y - self.y)
  let z_dist := (other.z - self.z) * (other.z - self.z)
  (x_dist, y_dist, z_dist)

/-- `Entity::theta_exceeded` from `src/entity.rs`: squared distance to the
node's center of mass, times θ², compared against the squared
`max_distance` of the node. -/
def theta_exceeded (self : Entity) (node : Node) : Prop :=
  let node_as_entity := node.as_entity
  let dist := self.distance_squared node_as_entity
  let max_dist := node.max_distance
  dist * (self.theta * self.theta) > max_dist * max_dist

noncomputable instance (self : Entity) (node : Node) :
    Decidable (theta_exceeded self node) := by
  unfold theta_exceeded
  exact Real.decidableLT _ _

/-- `Entity::get_gravitational_acceleration` from `src/entity.rs`; the Rust
`Either<&Entity, &Node>` argument becomes a sum type. -/
noncomputable def get_gravitational_acceleration (self : Entity)
    (oth : Entity ⊕ Node) : ℝ × ℝ × ℝ :=
  let other :=
    match oth with
    | .inl entity => entity
    | .inr node => node.as_entity
  let d_magnitude := self.distance other
  let d_vector := self.distance_vector other
  let d_over_d_cubed :=
    (d_vector.1 / d_magnitude * d_magnitude,
     d_vector.2.1 / d_magnitude * d_magnitude,
     d_vector.2.2 / d_magnitude * d_magnitude)
  (d_over_d_cubed.1 * other.mass,
   d_over_d_cubed.2.1 * other.mass,
   d_over_d_cubed.2.2 * other.mass)

/-- `Entity::get_entity_acceleration_from` from `src/entity.rs`: accumulate
contributions from the left child and then the right child (direct sums over
a leaf child's points, a point-mass approximation when `theta_exceeded`,
recursion otherwise), then return the accumulator added to itself. -/
noncomputable def get_entity_acceleration_from (self : Entity) :
    Node → ℝ × ℝ × ℝ
  | .mk _ _ lft rgt _ _ _ _ _ _ _ _ _ _ _ _ =>
    let acceleration : ℝ × ℝ × ℝ := (0, 0, 0)
    let acceleration :=
      match lft with
      | some (.mk sd sv l r (some points) com tm rm xn xm yn ym zn zm ts th) =>
          points.foldl (fun acc i =>
            let tmp_accel := self.get_gravitational_acceleration (.inl i)
            (acc.1 + tmp_accel.1, acc.2.1 + tmp_accel.2.1,
             acc.2.2 + tmp_accel.2.2)) acceleration
      | some (.mk sd sv l r none com tm rm xn xm yn ym zn zm ts th) =>
          let n := Node.mk sd sv l r none com tm rm xn xm yn ym zn zm ts th
          if self.theta_exceeded n then
            let tmp_accel := self.get_gravitational_acceleration (.inr n)
            (acceleration.1 + tmp_accel.1, acceleration.2.1 + tmp_accel.2.1,
             acceleration.2.2 + tmp_accel.2.2)
          else
            let tmp_accel := self.get_entity_acceleration_from n
            (acceleration.1 + tmp_accel.1, acceleration.2.1 + tmp_accel.2.1,
             acceleration.2.2 + tmp_accel.2.2)
      | none => acceleration
    let acceleration :=
      match rgt with
      | some (.mk sd sv l r (some points) com tm rm xn xm yn ym zn zm ts th) =>
          points.foldl (fun acc i =>
            let tmp_accel := self.get_gravitational_acceleration (.inl i)
            (acc.1 + tmp_accel.1, acc.2.1 + tmp_accel.2.1,
             acc.2.2 + tmp_accel.2.2)) acceleration
      | some (.mk sd sv l r none com tm rm xn xm yn ym zn zm ts th) =>
          let n := Node.mk sd sv l r none com tm rm xn xm yn ym zn zm ts th
          if self.theta_exceeded n then
            let tmp_accel := self.get_gravitational_acceleration (.inr n)
            (acceleration.1 + tmp_accel.1, acceleration.2.1 + tmp_accel.2.1,
             acceleration.2.2 + tmp_accel.2.2)
          else
            let tmp_accel := self.get_entity_acceleration_from n
            (acceleration.1 + tmp_accel.1, acceleration.2.1 + tmp_accel.2.1,
             acceleration.2.2 + tmp_accel.2.2)
      | none => acceleration
    (acceleration.1 + acceleration.1, acceleration.2.1 + acceleration.2.1,
     acceleration.2.2 + acceleration.2.2)

/-- `Entity::apply_gravity_from` from `src/entity.rs`: fold the acceleration
into the velocity, then advance the position by the updated velocity. -/
noncomputable def apply_gravity_from (self : Entity) (node : Node) : Entity :=
  let acceleration := self.get_entity_acceleration_from node
  let vx := self.vx + acceleration.1 * self.time_step
  let vy := self.vy + acceleration.2.1 * self.time_step
  let vz := self.vz + acceleration.2.2 * self.time_step
  { vx := vx
    vy := vy
    vz := vz
    x := self.x + vx * self.time_step
    y := self.y + vy * self.time_step
    z := self.z + vz * self.time_step
    radius := self.radius
    mass := self.mass
    theta := self.theta
    time_step := self.time_step }

end Entity

/-- Modelled from the spec: the repository's `utilities` module
(`max_min_xyz`) is not under `src/`.  Per §4.2, `extents(P)` returns the
exact bounding box of the bodies; the result tuple follows the order used at
the call sites in `src/node.rs`: `(x_max, x_min, y_max, y_min, z_max, z_min)`.
On an empty slice all components are zero. -/
def max_min_xyz : List Entity → ℝ × ℝ × ℝ × ℝ × ℝ × ℝ
  | [] => (0, 0, 0, 0, 0, 0)
  | p :: ps =>
      ps.foldl (fun acc q =>
        (max acc.1 q.x, min acc.2.1 q.x,
         max acc.2.2.1 q.y, min acc.2.2.2.1 q.y,
         max acc.2.2.2.2.1 q.z, min acc.2.2.2.2.2 q.z))
        (p.x, p.x, p.y, p.y, p.z, p.z)

/-- Modelled from the spec: the repository's `utilities` module
(`xyz_distances`) is not under `src/`.  Per §4.2, `spans(P)` is
`axis_max − axis_min` per axis. -/
def xyz_distances (pts : List Entity) : ℝ × ℝ × ℝ :=
  let (x_max, x_min, y_max, y_min, z_max, z_min) := max_min_xyz pts
  (x_max - x_min, y_max - y_min, z_max - z_min)

/-- Modelled from the spec: the repository's `utilities` module
(`find_median`) is not under `src/`.  Per §4.2, `median_partition(P, axis)`
rearranges `P` so that everything before the split index is ≤ the median
coordinate on the axis and everything from it on is ≥, and returns the
median coordinate together with the split index.  Here the rearrangement is
a sort on the chosen axis and the split index is the middle position; the
rearranged list is returned as well so the builder can recurse on it. -/
noncomputable def find_median (dim : Dimension) (pts : List Entity) :
    ℝ × ℕ × List Entity :=
  let sorted := List.insertionSort
    (fun a b : Entity => a.get_dim dim ≤ b.get_dim dim) pts
  let mid := pts.length / 2
  ((sorted.getD mid default).get_dim dim, mid, sorted)

namespace Node

/-- `Node::new_root_node` from `src/node.rs`, with an explicit fuel argument
to express the recursion (the Rust recursion consumes strictly smaller
slices whenever `max_pts ≥ 1`; the fuel is irrelevant in that regime, see
`new_root_node`).  A leaf keeps the slice verbatim together with the folded
aggregates; otherwise the span comparison chain picks the split axis, the
median partition yields the two sub-slices, and the interior node is
assembled exactly as in the source: the node starts from `Node::new` (in
particular its `total_mass` field keeps the default `0.0`, the source never
reassigns it for interior nodes), gets its split data, children and center
of mass, and finally `set_max_mins`. -/
noncomputable def new_root_node_go (fuel : ℕ) (pts : List Entity)
    (theta : ℝ) (max_pts : ℤ) (time_step : ℝ) : Node :=
  match fuel with
  | 0 => Node.new theta time_step
  | fuel + 1 =>
    let length_of_points : ℤ := pts.length
    let (xdistance, ydistance, zdistance) := xyz_distances pts
    if length_of_points ≤ max_pts then
      let (x_total, y_total, z_total, max_radius, total_mass) :=
        pts.foldl (fun acc pt =>
          (acc.1 + pt.x * pt.mass,
           acc.2.1 + pt.y * pt.mass,
           acc.2.2.1 + pt.z * pt.mass,
           if acc.2.2.2.1 > pt.radius then acc.2.2.2.1 else pt.radius,
           acc.2.2.2.2 + pt.mass)) (0, 0, 0, 0, 0)
      let (x_max, x_min, y_max, y_min, z_max, z_min) := max_min_xyz pts
      Node.mk none 0 none none (some pts)
        (x_total / total_mass, y_total / total_mass, z_total / total_mass)
        total_mass max_radius
        x_min x_max y_min y_max z_min z_max time_step theta
    else
      let (split_dimension, split_value, split_index, rearranged) :=
        if zdistance > ydistance ∧ zdistance > xdistance then
          let (split_value, tmp, rearranged) := find_median Dimension.Z pts
          (Dimension.Z, split_value, tmp, rearranged)
        else if ydistance > xdistance ∧ ydistance > zdistance then
          let (split_value, tmp, rearranged) := find_median Dimension.Y pts
          (Dimension.Y, split_value, tmp, rearranged)
        else
          let (split_value, tmp, rearranged) := find_median Dimension.X pts
          (Dimension.X, split_value, tmp, rearranged)
      let lower_vec := rearranged.take split_index
      let upper_vec := rearranged.drop split_index
      let left := new_root_node_go fuel lower_vec theta max_pts time_step
      let right := new_root_node_go fuel upper_vec theta max_pts time_step
      let left_mass := left.total_mass
      let right_mass := right.total_mass
      let (left_x, left_y, left_z) := left.center_of_mass
      let (right_x, right_y, right_z) := right.center_of_mass
      let total_mass := left_mass + right_mass
      let center_x := ((left_mass * left_x) + (right_mass * right_x)) / total_mass
      let center_y := ((left_mass * left_y) + (right_mass * right_y)) / total_mass
      let center_z := ((left_mass * left_z) + (right_mass * right_z)) / total_mass
      Node.set_max_mins
        (Node.mk (some split_dimension) split_value (some left) (some right)
          none (center_x, center_y, center_z)
          (Node.new theta time_step).total_mass
          (Node.new theta time_step).r_max
          (Node.new theta time_step).x_min (Node.new theta time_step).x_max
          (Node.new theta time_step).y_min (Node.new theta time_step).y_max
          (Node.new theta time_step).z_min (Node.new theta time_step).z_max
          time_step theta)

/-- `Node::new_root_node` at adequate fuel: one more than the slice length
suffices because every recursive call is on a strictly shorter slice when
`max_pts ≥ 1`. -/
noncomputable def new_root_node (pts : List Entity) (theta : ℝ)
    (max_pts : ℤ) (time_step : ℝ) : Node :=
  new_root_node_go (pts.length + 1) pts theta max_pts time_step

end Node

/-- `GravTree` from `src/gravtree.rs`. -/
structure GravTree where
  root : Node
  number_of_entities : ℕ
  theta : ℝ
  max_pts : ℤ
  time_step : ℝ

namespace GravTree

/-- `GravTree::new` from `src/gravtree.rs`. -/
noncomputable def new (pts : List Entity) (theta : ℝ) (max_pts : ℤ)
    (time_step : ℝ) : GravTree :=
  { root := Node.new_root_node pts theta max_pts time_step
    number_of_entities := pts.length
    theta := theta
    max_pts := max_pts
    time_step := time_step }

/-- `GravTree::as_vec` from `src/gravtree.rs`: traverse the left child, then
the right child; when the right child is absent append the root's own points
(the source's `expect` panic is unreachable for built trees and is modelled
by the empty list). -/
def as_vec (self : GravTree) : List Entity :=
  let node := self.root
  let to_return : List Entity := []
  let to_return :=
    match node.left with
    | some node' => to_return ++ node'.traverse_tree_helper
    | none => to_return
  match node.right with
  | some node' => to_return ++ node'.traverse_tree_helper
  | none => to_return ++ (node.points.getD [])

/-- `GravTree::time_step` from `src/gravtree.rs`: collect the bodies, apply
gravity to each against the current root, and build a fresh tree with the
same parameters.  (Lean forbids a method named like the `time_step` field,
hence the primed name.) -/
noncomputable def time_step' (self : GravTree) : GravTree :=
  let post_gravity_entity_vec := self.root.traverse_tree_helper
  GravTree.new
    (post_gravity_entity_vec.map (fun x => x.apply_gravity_from self.root))
    self.theta self.max_pts self.time_step

end GravTree

def digitVal (c : Char) : ℕ := c.toNat - '0'.toNat

def natOfDigits (l : List Char) : ℕ :=
  l.foldl (fun n c => 10 * n + digitVal c) 0

/-- Modelled from the spec: Rust's standard `str::parse::<f64>` is not
repository code.  Per §6 the fields are numeric; this model accepts an
optional leading minus sign, a nonempty digit run, and an optional fraction
part after a single dot, and rejects everything else. -/
noncomputable def parse_f64 (s : String) : Option ℝ :=
  let signAndBody : ℝ × List Char :=
    match s.data with
    | '-' :: rest => (-1, rest)
    | l => (1, l)
  let sgn := signAndBody.1
  match signAndBody.2.span (fun c => c.isDigit) with
  | (intpart, []) =>
      if intpart = [] then none else some (sgn * natOfDigits intpart)
  | (intpart, '.' :: fracpart) =>
      if intpart ≠ [] ∧ fracpart ≠ [] ∧ fracpart.all (fun c => c.isDigit) then
        some (sgn * ((natOfDigits intpart : ℝ) +
          (natOfDigits fracpart : ℝ) / 10 ^ fracpart.length))
      else none
  | _ => none

namespace GravTree

/-- Character loop of `GravTree::from_data_file` from `src/gravtree.rs`,
parameterised by the numeric parser and started on the text already read
from the file (the file-opening and file-reading panics are I/O and outside
the model).  Non-separator characters accumulate into `tmp_str`; a space
flushes the field; a newline flushes the field and closes the record: with
exactly eight fields the eight `parse().unwrap()` calls run (an unparseable
field panics, modelled as `none`), otherwise the single error value is
returned. -/
noncomputable def from_data_chars (parse : String → Option ℝ)
    (theta time_step : ℝ) :
    List Char → String → List String → List Entity →
    Option (Except String (List Entity))
  | [], _, _, entities => some (.ok entities)
  | i :: rest, tmp_str, tmp, entities =>
    if i ≠ '\n' ∧ i ≠ ' ' then
      from_data_chars parse theta time_step rest (tmp_str.push i) tmp entities
    else if i = ' ' then
      from_data_chars parse theta time_step rest "" (tmp ++ [tmp_str]) entities
    else
      match tmp ++ [tmp_str] with
      | [t0, t1, t2, t3, t4, t5, t6, t7] =>
          match parse t0, parse t1, parse t2, parse t3,
                parse t4, parse t5, parse t6, parse t7 with
          | some x_val, some y_val, some z_val, some vx_val,
            some vy_val, some vz_val, some mass_val, some radius_val =>
              let tmp_part : Entity :=
                { x := x_val, y := y_val, z := z_val,
                  vx := vx_val, vy := vy_val, vz := vz_val,
                  mass := mass_val, radius := radius_val,
                  theta := theta, time_step := time_step }
              from_data_chars parse theta time_step rest "" []
                (entities ++ [tmp_part])
          | _, _, _, _, _, _, _, _ => none
      | _ => some (.error "Input file invalid.")

/-- `GravTree::from_data_file` from `src/gravtree.rs`, applied to the text of
the file: run the character loop and build the tree from the collected
entities on success.  The outer `Option` models a panic, the inner `Except`
is the Rust `Result`. -/
noncomputable def from_data_text (parse : String → Option ℝ) (s : List Char)
    (theta : ℝ) (max_pts : ℤ) (time_step : ℝ) :
    Option (Except String GravTree) :=
  match from_data_chars parse theta time_step s "" [] [] with
  | none => none
  | some (.error e) => some (.error e)
  | some (.ok entities) =>
      some (.ok (GravTree.new entities theta max_pts time_step))

end GravTree

/-- Standalone contribution of one optional child, as accumulated by one
`match` arm of `get_entity_acceleration_from` when started from a zero
accumulator: direct sums over a leaf child's points, the point-mass
approximation when `theta_exceeded`, recursion otherwise. -/
noncomputable def child_contribution (self : Entity) :
    Option Node → ℝ × ℝ × ℝ
  | some n =>
      match n.points with
      | some points =>
          points.foldl (fun acc i =>
            let tmp_accel := self.get_gravitational_acceleration (.inl i)
            (acc.1 + tmp_accel.1, acc.2.1 + tmp_accel.2.1,
             acc.2.2 + tmp_accel.2.2)) (0, 0, 0)
      | none =>
          if self.theta_exceeded n then
            self.get_gravitational_acceleration (.inr n)
          else
            self.get_entity_acceleration_from n
  | none => (0, 0, 0)

theorem foldl_accum_shift (self : Entity) (l : List Entity) (a : ℝ × ℝ × ℝ) :
    l.foldl (fun acc i =>
      let tmp_accel := self.get_gravitational_acceleration (.inl i)
      (acc.1 + tmp_accel.1, acc.2.1 + tmp_accel.2.1,
       acc.2.2 + tmp_accel.2.2)) a =
    (a.1 + (l.foldl (fun acc i =>
      let tmp_accel := self.get_gravitational_acceleration (.inl i)
      (acc.1 + tmp_accel.1, acc.2.1 + tmp_accel.2.1,
       acc.2.2 + tmp_accel.2.2)) ((0 : ℝ), (0 : ℝ), (0 : ℝ))).1,
     a.2.1 + (l.foldl (fun acc i =>
      let tmp_accel := self.get_gravitational_acceleration (.inl i)
      (acc.1 + tmp_accel.1, acc.2.1 + tmp_accel.2.1,
       acc.2.2 + tmp_accel.2.2)) ((0 : ℝ), (0 : ℝ), (0 : ℝ))).2.1,
     a.2.2 + (l.foldl (fun acc i =>
      let tmp_accel := self.get_gravitational_acceleration (.inl i)
      (acc.1 + tmp_accel.1, acc.2.1 + tmp_accel.2.1,
       acc.2.2 + tmp_accel.2.2)) ((0 : ℝ), (0 : ℝ), (0 : ℝ))).2.2) := by
  induction l generalizing a with
  | nil => simp
  | cons x xs ih =>
      simp only [List.foldl_cons]
      rw [ih, ih ((0 : ℝ) + _, (0 : ℝ) + _, (0 : ℝ) + _)]
      dsimp only
      refine Prod.ext ?_ (Prod.ext ?_ ?_) <;> dsimp <;> ring

/-- C2: for every target body `b` and node `n`,
`get_entity_acceleration_from b n` returns exactly twice the componentwise
sum of the contributions accumulated from `n`'s left and right children —
the final result is
`(acceleration.0 + acceleration.0, acceleration.1 + acceleration.1,
acceleration.2 + acceleration.2)`. -/
theorem c2_result_doubles_child_sum (self : Entity) (node : Node) :
    self.get_entity_acceleration_from node =
      ((child_contribution self node.left).1 +
         (child_contribution self node.right).1 +
       ((child_contribution self node.left).1 +
         (child_contribution self node.right).1),
       (child_contribution self node.left).2.1 +
         (child_contribution self node.right).2.1 +
       ((child_contribution self node.left).2.1 +
         (child_contribution self node.right).2.1),
       (child_contribution self node.left).2.2 +
         (child_contribution self node.right).2.2 +
       ((child_contribution self node.left).2.2 +
         (child_contribution self node.right).2.2)) := by
  obtain ⟨sd, sv, lft, rgt, pts, com, tm, rm, xn, xm, yn, ym, zn, zm, ts, th⟩ := node
  rw [Entity.get_entity_acceleration_from.eq_def]
  simp only [Node.left, Node.right]
  rcases lft with _ |
      ⟨lsd, lsv, ll, lr, _ | lp, lcom, ltm, lrm, lxn, lxm, lyn, lym, lzn, lzm, lts, lth⟩ <;>
    rcases rgt with _ |
      ⟨rsd, rsv, rl, rr, _ | rp, rcom, rtm, rrm, rxn, rxm, ryn, rym, rzn, rzm, rts, rth⟩ <;>
    simp only [child_contribution, Node.points]
  · simp
  · split_ifs <;> refine Prod.ext ?_ (Prod.ext ?_ ?_) <;> dsimp <;> ring
  · rw [foldl_accum_shift]
    refine Prod.ext ?_ (Prod.ext ?_ ?_) <;> dsimp <;> ring
  · split_ifs <;> refine Prod.ext ?_ (Prod.ext ?_ ?_) <;> dsimp <;> ring
  · split_ifs <;> refine Prod.ext ?_ (Prod.ext ?_ ?_) <;> dsimp <;> ring
  · split_ifs <;> rw [foldl_accum_shift] <;>
      refine Prod.ext ?_ (Prod.ext ?_ ?_) <;> dsimp <;> ring
  · rw [foldl_accum_shift]
    refine Prod.ext ?_ (Prod.ext ?_ ?_) <;> dsimp <;> ring
  · split_ifs <;> rw [foldl_accum_shift] <;>
      refine Prod.ext ?_ (Prod.ext ?_ ?_) <;> dsimp <;> ring
  · rw [foldl_accum_shift, foldl_accum_shift]

/-- C3: `theta_exceeded b n` holds exactly when the squared distance from
`b` to `n`'s center of mass, multiplied by θ², exceeds the square of `n`'s
`max_distance`, where `max_distance` is
`max(x_max − x_min, y_max − y_min, z_max − z_min)`, the largest side of the
bounding box. -/
theorem c3_theta_exceeded_iff (b : Entity) (n : Node) :
    b.theta_exceeded n ↔
      ((n.center_of_mass.1 - b.x) ^ 2 + (n.center_of_mass.2.1 - b.y) ^ 2 +
          (n.center_of_mass.2.2 - b.z) ^ 2) * b.theta ^ 2 >
        (max (n.x_max - n.x_min) (max (n.y_max - n.y_min) (n.z_max - n.z_min))) ^ 2 := by
  have hds : b.distance_squared n.as_entity =
      (n.center_of_mass.1 - b.x) ^ 2 + (n.center_of_mass.2.1 - b.y) ^ 2 +
        (n.center_of_mass.2.2 - b.z) ^ 2 := by
    simp only [Entity.distance_squared, Node.as_entity]
    ring
  have hmd : n.max_distance =
      max (n.x_max - n.x_min) (max (n.y_max - n.y_min) (n.z_max - n.z_min)) := rfl
  simp only [Entity.theta_exceeded, hds, hmd]
  rw [← pow_two b.theta, ← pow_two
    (max (n.x_max - n.x_min) (max (n.y_max - n.y_min) (n.z_max - n.z_min)))]

/-- C4: `apply_gravity_from` returns a new entity with
`v' = v + a·Δt` and position advanced by the updated velocity,
`r' = r + v'·Δt`, with mass, radius, θ and Δt carried over unchanged; the
embedding is a pure function of the argument entity, which is never
mutated. -/
theorem c4_apply_gravity_semi_implicit_euler (e : Entity) (n : Node) :
    (e.apply_gravity_from n).vx =
        e.vx + (e.get_entity_acceleration_from n).1 * e.time_step ∧
    (e.apply_gravity_from n).vy =
        e.vy + (e.get_entity_acceleration_from n).2.1 * e.time_step ∧
    (e.apply_gravity_from n).vz =
        e.vz + (e.get_entity_acceleration_from n).2.2 * e.time_step ∧
    (e.apply_gravity_from n).x = e.x + (e.apply_gravity_from n).vx * e.time_step ∧
    (e.apply_gravity_from n).y = e.y + (e.apply_gravity_from n).vy * e.time_step ∧
    (e.apply_gravity_from n).z = e.z + (e.apply_gravity_from n).vz * e.time_step ∧
    (e.apply_gravity_from n).mass = e.mass ∧
    (e.apply_gravity_from n).radius = e.radius ∧
    (e.apply_gravity_from n).theta = e.theta ∧
    (e.apply_gravity_from n).time_step = e.time_step := by
  refine ⟨rfl, rfl, rfl, rfl, rfl, rfl, rfl, rfl, rfl, rfl⟩

/-- C1: for entities at distinct positions, `distance_vector` returns the
componentwise squared differences, and because the acceleration formula
computes `Δ / |r| * |r|` (the two `|r|` factors cancel), each component of
`get_gravitational_acceleration` equals `other.mass` times the squared
coordinate difference on that axis. -/
theorem c1_acceleration_squared_components (self other : Entity)
    (h : (self.x, self.y, self.z) ≠ (other.x, other.y, other.z)) :
    self.distance_vector other =
      ((other.x - self.x) ^ 2, (other.y - self.y) ^ 2, (other.z - self.z) ^ 2) ∧
    self.get_gravitational_acceleration (.inl other) =
      (other.mass * (other.x - self.x) ^ 2,
       other.mass * (other.y - self.y) ^ 2,
       other.mass * (other.z - self.z) ^ 2) := by
  have hne : self.x ≠ other.x ∨ self.y ≠ other.y ∨ self.z ≠ other.z := by
    by_contra hc
    push_neg at hc
    exact h (by simp [Prod.ext_iff, hc.1, hc.2.1, hc.2.2])
  have hpos : 0 < self.distance_squared other := by
    have h1 := mul_self_nonneg (other.x - self.x)
    have h2 := mul_self_nonneg (other.y - self.y)
    have h3 := mul_self_nonneg (other.z - self.z)
    simp only [Entity.distance_squared]
    rcases hne with hx | hy | hz
    · have := mul_self_pos.mpr (sub_ne_zero.mpr (Ne.symm hx))
      linarith
    · have := mul_self_pos.mpr (sub_ne_zero.mpr (Ne.symm hy))
      linarith
    · have := mul_self_pos.mpr (sub_ne_zero.mpr (Ne.symm hz))
      linarith
  have hdne : self.distance other ≠ 0 :=
    ne_of_gt (Real.sqrt_pos.mpr hpos)
  constructor
  · simp only [Entity.distance_vector]
    refine Prod.ext ?_ (Prod.ext ?_ ?_) <;> dsimp <;> ring
  · simp only [Entity.get_gravitational_acceleration, Entity.distance_vector]
    refine Prod.ext ?_ (Prod.ext ?_ ?_) <;> dsimp <;>
      rw [div_mul_cancel₀ _ hdne] <;> ring

/-- Witness for C1 at a concrete pair of entities at distinct positions. -/
theorem c1_witness :
    ((Entity.mk 0 0 0 0 0 0 0 1 0.2 0.2).x,
     (Entity.mk 0 0 0 0 0 0 0 1 0.2 0.2).y,
     (Entity.mk 0 0 0 0 0 0 0 1 0.2 0.2).z) ≠
      ((Entity.mk 0 0 0 1 0 0 0 5 0.2 0.2).x,
       (Entity.mk 0 0 0 1 0 0 0 5 0.2 0.2).y,
       (Entity.mk 0 0 0 1 0 0 0 5 0.2 0.2).z) ∧
    (Entity.mk 0 0 0 0 0 0 0 1 0.2 0.2).distance_vector
        (Entity.mk 0 0 0 1 0 0 0 5 0.2 0.2) =
      (((Entity.mk 0 0 0 1 0 0 0 5 0.2 0.2).x -
          (Entity.mk 0 0 0 0 0 0 0 1 0.2 0.2).x) ^ 2,
       ((Entity.mk 0 0 0 1 0 0 0 5 0.2 0.2).y -
          (Entity.mk 0 0 0 0 0 0 0 1 0.2 0.2).y) ^ 2,
       ((Entity.mk 0 0 0 1 0 0 0 5 0.2 0.2).z -
          (Entity.mk 0 0 0 0 0 0 0 1 0.2 0.2).z) ^ 2) ∧
    (Entity.mk 0 0 0 0 0 0 0 1 0.2 0.2).get_gravitational_acceleration
        (.inl (Entity.mk 0 0 0 1 0 0 0 5 0.2 0.2)) =
      ((Entity.mk 0 0 0 1 0 0 0 5 0.2 0.2).mass *
          (((Entity.mk 0 0 0 1 0 0 0 5 0.2 0.2).x -
            (Entity.mk 0 0 0 0 0 0 0 1 0.2 0.2).x)) ^ 2,
       (Entity.mk 0 0 0 1 0 0 0 5 0.2 0.2).mass *
          (((Entity.mk 0 0 0 1 0 0 0 5 0.2 0.2).y -
            (Entity.mk 0 0 0 0 0 0 0 1 0.2 0.2).y)) ^ 2,
       (Entity.mk 0 0 0 1 0 0 0 5 0.2 0.2).mass *
          (((Entity.mk 0 0 0 1 0 0 0 5 0.2 0.2).z -
            (Entity.mk 0 0 0 0 0 0 0 1 0.2 0.2).z)) ^ 2) := by
  have hne : ((Entity.mk 0 0 0 0 0 0 0 1 0.2 0.2).x,
      (Entity.mk 0 0 0 0 0 0 0 1 0.2 0.2).y,
      (Entity.mk 0 0 0 0 0 0 0 1 0.2 0.2).z) ≠
        ((Entity.mk 0 0 0 1 0 0 0 5 0.2 0.2).x,
         (Entity.mk 0 0 0 1 0 0 0 5 0.2 0.2).y,
         (Entity.mk 0 0 0 1 0 0 0 5 0.2 0.2).z) := by
    simp [Prod.ext_iff]
  exact ⟨hne, c1_acceleration_squared_components _ _ hne⟩

theorem geaf_zero_of_childless (b : Entity) (n : Node)
    (hl : n.left = none) (hr : n.right = none) :
    b.get_entity_acceleration_from n = (0, 0, 0) := by
  obtain ⟨sd, sv, lft, rgt, pts, com, tm, rm, xn, xm, yn, ym, zn, zm, ts, th⟩ := n
  simp only [Node.left] at hl
  simp only [Node.right] at hr
  subst hl
  subst hr
  rw [Entity.get_entity_acceleration_from.eq_def]
  norm_num

theorem new_root_node_leaf (pts : List Entity) (theta : ℝ) (max_pts : ℤ)
    (ts : ℝ) (h : (pts.length : ℤ) ≤ max_pts) :
    (Node.new_root_node pts theta max_pts ts).left = none ∧
    (Node.new_root_node pts theta max_pts ts).right = none ∧
    (Node.new_root_node pts theta max_pts ts).points = some pts := by
  rw [Node.new_root_node, Node.new_root_node_go]
  simp only [if_pos h]
  exact ⟨rfl, rfl, rfl⟩

/-- C5: a tree built from at most `max_pts` bodies has a childless (leaf)
root; on such a root `get_entity_acceleration_from` returns `(0, 0, 0)` for
every target body (the function only looks at the children, never at the
node's own points), so `apply_gravity_from` leaves the velocity unchanged
and advances the position by velocity·Δt only, and one `time_step` maps
exactly that advance over the collected bodies. -/
theorem c5_leaf_root_inert (pts : List Entity) (theta : ℝ) (max_pts : ℤ)
    (ts : ℝ) (h : (pts.length : ℤ) ≤ max_pts) :
    (Node.new_root_node pts theta max_pts ts).left = none ∧
    (Node.new_root_node pts theta max_pts ts).right = none ∧
    (∀ b : Entity,
      b.get_entity_acceleration_from (Node.new_root_node pts theta max_pts ts) =
        (0, 0, 0)) ∧
    (∀ e : Entity,
      e.apply_gravity_from (Node.new_root_node pts theta max_pts ts) =
        { e with
          x := e.x + e.vx * e.time_step
          y := e.y + e.vy * e.time_step
          z := e.z + e.vz * e.time_step }) ∧
    (∀ T : GravTree, T.root = Node.new_root_node pts theta max_pts ts →
      T.time_step' =
        GravTree.new (T.root.traverse_tree_helper.map (fun e =>
          { e with
            x := e.x + e.vx * e.time_step
            y := e.y + e.vy * e.time_step
            z := e.z + e.vz * e.time_step }))
          T.theta T.max_pts T.time_step) := by
  obtain ⟨hl, hr, -⟩ := new_root_node_leaf pts theta max_pts ts h
  have happly : ∀ e : Entity,
      e.apply_gravity_from (Node.new_root_node pts theta max_pts ts) =
        { e with
          x := e.x + e.vx * e.time_step
          y := e.y + e.vy * e.time_step
          z := e.z + e.vz * e.time_step } := by
    intro e
    have hz := geaf_zero_of_childless e _ hl hr
    simp only [Entity.apply_gravity_from, hz]
    obtain ⟨evx, evy, evz, ex, ey, ez, er, em, eth, ets⟩ := e
    simp only [Entity.mk.injEq]
    refine ⟨?_, ?_, ?_, ?_, ?_, ?_, ?_, ?_, ?_, ?_⟩ <;> dsimp <;> ring
  refine ⟨hl, hr, fun b => geaf_zero_of_childless b _ hl hr, happly, ?_⟩
  intro T hT
  simp only [GravTree.time_step']
  congr 1
  apply List.map_congr_left
  intro a _
  rw [hT]
  exact happly a

/-- Witness for C5 at a concrete one-body slice with `max_pts = 3`. -/
theorem c5_witness :
    ((([Entity.mk 0 0 0 0 0 0 0 1 0.2 0.2] : List Entity).length : ℤ) ≤ 3) ∧
    ((Node.new_root_node [Entity.mk 0 0 0 0 0 0 0 1 0.2 0.2] 0.2 3 0.2).left =
        none ∧
      (Node.new_root_node [Entity.mk 0 0 0 0 0 0 0 1 0.2 0.2] 0.2 3 0.2).right =
        none ∧
      (∀ b : Entity,
        b.get_entity_acceleration_from
          (Node.new_root_node [Entity.mk 0 0 0 0 0 0 0 1 0.2 0.2] 0.2 3 0.2) =
          (0, 0, 0)) ∧
      (∀ e : Entity,
        e.apply_gravity_from
          (Node.new_root_node [Entity.mk 0 0 0 0 0 0 0 1 0.2 0.2] 0.2 3 0.2) =
          { e with
            x := e.x + e.vx * e.time_step
            y := e.y + e.vy * e.time_step
            z := e.z + e.vz * e.time_step }) ∧
      (∀ T : GravTree,
        T.root = Node.new_root_node [Entity.mk 0 0 0 0 0 0 0 1 0.2 0.2] 0.2 3 0.2 →
        T.time_step' =
          GravTree.new (T.root.traverse_tree_helper.map (fun e =>
            { e with
              x := e.x + e.vx * e.time_step
              y := e.y + e.vy * e.time_step
              z := e.z + e.vz * e.time_step }))
            T.theta T.max_pts T.time_step)) :=
  ⟨by norm_num,
   c5_leaf_root_inert [Entity.mk 0 0 0 0 0 0 0 1 0.2 0.2] 0.2 3 0.2 (by norm_num)⟩

set_option maxHeartbeats 3200000 in
/-- C6: evaluation of the builder at the failing input — two unit-mass
bodies at x = 0 and x = 1 with `max_pts = 1`.  The interior root keeps the
`total_mass = 0.0` default from `Node::new` (the source computes
`left_mass + right_mass` into a local variable but never stores it), while
each child leaf carries total mass 1; the root's `total_mass` is therefore
not the sum of its children's, contradicting the claimed invariant. -/
theorem c6_interior_total_mass_zero :
    (Node.new_root_node
        [Entity.mk 0 0 0 0 0 0 0 1 0.2 0.2, Entity.mk 0 0 0 1 0 0 0 1 0.2 0.2]
        0.2 1 0.2).total_mass = 0 ∧
    (Node.new_root_node
        [Entity.mk 0 0 0 0 0 0 0 1 0.2 0.2, Entity.mk 0 0 0 1 0 0 0 1 0.2 0.2]
        0.2 1 0.2).left.map Node.total_mass = some 1 ∧
    (Node.new_root_node
        [Entity.mk 0 0 0 0 0 0 0 1 0.2 0.2, Entity.mk 0 0 0 1 0 0 0 1 0.2 0.2]
        0.2 1 0.2).right.map Node.total_mass = some 1 ∧
    (Node.new_root_node
        [Entity.mk 0 0 0 0 0 0 0 1 0.2 0.2, Entity.mk 0 0 0 1 0 0 0 1 0.2 0.2]
        0.2 1 0.2).total_mass ≠ 1 + 1 := by
  norm_num [Node.new_root_node, Node.new_root_node_go, xyz_distances,
    max_min_xyz, find_median, List.insertionSort, List.orderedInsert,
    Entity.get_dim, Node.set_max_mins, Node.new, Node.total_mass, Node.left,
    Node.right, Option.map]

theorem find_median_index (dim : Dimension) (pts : List Entity) :
    (find_median dim pts).2.1 = pts.length / 2 := rfl

theorem find_median_len (dim : Dimension) (pts : List Entity) :
    (find_median dim pts).2.2.length = pts.length := by
  simp [find_median]

theorem go_leaves_sized (fuel : ℕ) :
    ∀ (pts : List Entity) (theta ts : ℝ) (max_pts : ℤ),
      pts ≠ [] → 1 ≤ max_pts → pts.length < fuel →
      Node.leaves_sized max_pts (Node.new_root_node_go fuel pts theta max_pts ts) := by
  induction fuel with
  | zero => intro pts _ _ _ _ _ hlt; omega
  | succ fuel ih =>
      intro pts theta ts max_pts hne hmp hlt
      have hpos : 1 ≤ pts.length := List.length_pos.mpr hne
      have hltf : pts.length ≤ fuel := Nat.lt_succ_iff.mp hlt
      rw [Node.new_root_node_go]
      rcases hxyz : xyz_distances pts with ⟨xdistance, ydistance, zdistance⟩
      dsimp only
      by_cases hle : (pts.length : ℤ) ≤ max_pts
      · rw [if_pos hle]
        rw [Node.leaves_sized]
        exact ⟨⟨hpos, hle⟩, trivial, trivial⟩
      · rw [if_neg hle]
        push_neg at hle
        have hlen2 : 2 ≤ pts.length := by
          have h1 : (1 : ℤ) < (pts.length : ℤ) := lt_of_le_of_lt hmp hle
          exact_mod_cast h1
        split_ifs <;>
        · dsimp only
          simp only [Node.set_max_mins]
          rw [Node.leaves_sized]
          refine ⟨trivial, ih _ theta ts _ ?_ hmp ?_, ih _ theta ts _ ?_ hmp ?_⟩
          · apply List.length_pos.mp
            simp only [List.length_take, find_median_index, find_median_len]
            omega
          · simp only [List.length_take, find_median_index, find_median_len]
            omega
          · apply List.length_pos.mp
            simp only [List.length_drop, find_median_index, find_median_len]
            omega
          · simp only [List.length_drop, find_median_index, find_median_len]
            omega

/-- C7: every leaf of a tree built by `new_root_node` from a non-empty body
slice (with `max_pts ≥ 1`, the spec's input contract) holds between 1 and
`max_pts` bodies inclusive; in particular no leaf is empty. -/
theorem c7_leaf_cardinality (pts : List Entity) (theta ts : ℝ)
    (max_pts : ℤ) (hne : pts ≠ []) (hmp : 1 ≤ max_pts) :
    Node.leaves_sized max_pts (Node.new_root_node pts theta max_pts ts) :=
  go_leaves_sized (pts.length + 1) pts theta ts max_pts hne hmp
    (Nat.lt_succ_self _)

/-- Witness for C7 at a concrete two-body slice with `max_pts = 1`. -/
theorem c7_witness :
    ([Entity.mk 0 0 0 0 0 0 0 1 0.2 0.2, Entity.mk 0 0 0 1 0 0 0 1 0.2 0.2] ≠
        ([] : List Entity)) ∧
    (1 : ℤ) ≤ 1 ∧
    Node.leaves_sized 1
      (Node.new_root_node
        [Entity.mk 0 0 0 0 0 0 0 1 0.2 0.2, Entity.mk 0 0 0 1 0 0 0 1 0.2 0.2]
        0.2 1 0.2) :=
  ⟨by simp, le_refl 1,
   c7_leaf_cardinality
     [Entity.mk 0 0 0 0 0 0 0 1 0.2 0.2, Entity.mk 0 0 0 1 0 0 0 1 0.2 0.2]
     0.2 0.2 1 (by simp) (le_refl 1)⟩

set_option maxHeartbeats 3200000 in
/-- C8 counterexample: two bodies at (0,0,0) and (0,1,1) with `max_pts = 1`
give equal Y and Z spans (both 1), each strictly greater than the X span
(0).  The greatest-span axes are Y and Z, so the claimed
"greatest span, ties preferring Z over Y over X" policy would split on Z —
but the chained strict `>` comparisons select the X axis. -/
theorem c8_counterexample :
    xyz_distances
        [Entity.mk 0 0 0 0 0 0 0 1 0.2 0.2, Entity.mk 0 0 0 0 1 1 0 1 0.2 0.2] =
      (0, 1, 1) ∧
    (Node.new_root_node
        [Entity.mk 0 0 0 0 0 0 0 1 0.2 0.2, Entity.mk 0 0 0 0 1 1 0 1 0.2 0.2]
        0.2 1 0.2).split_dimension = some Dimension.X := by
  constructor
  · norm_num [xyz_distances, max_min_xyz]
  · norm_num [Node.new_root_node, Node.new_root_node_go, xyz_distances,
      max_min_xyz, find_median, List.insertionSort, List.orderedInsert,
      Entity.get_dim, Node.set_max_mins, Node.new, Node.split_dimension]

/-- C8 amended: for a slice with more than `max_pts` bodies the builder
splits on Z exactly when the Z span is strictly greater than both others,
else on Y exactly when the Y span is strictly greater than both others, and
on X otherwise — so a tied span never wins, every tie falls through towards
X, and in the all-spans-equal case X is selected. -/
theorem c8_amended_axis_selection (pts : List Entity) (theta ts : ℝ)
    (max_pts : ℤ) (h : max_pts < (pts.length : ℤ)) :
    (Node.new_root_node pts theta max_pts ts).split_dimension =
      some
        (if (xyz_distances pts).2.2 > (xyz_distances pts).2.1 ∧
            (xyz_distances pts).2.2 > (xyz_distances pts).1 then Dimension.Z
         else if (xyz_distances pts).2.1 > (xyz_distances pts).1 ∧
            (xyz_distances pts).2.1 > (xyz_distances pts).2.2 then Dimension.Y
         else Dimension.X) := by
  rw [Node.new_root_node, Node.new_root_node_go]
  rcases hxyz : xyz_distances pts with ⟨xdistance, ydistance, zdistance⟩
  dsimp only
  rw [if_neg (not_le.mpr h)]
  split_ifs <;>
    simp [Node.set_max_mins, Node.split_dimension]

/-- Witness for the amended C8 theorem at a concrete two-body slice. -/
theorem c8_witness :
    (1 : ℤ) <
      (([Entity.mk 0 0 0 0 0 0 0 1 0.2 0.2,
         Entity.mk 0 0 0 0 1 1 0 1 0.2 0.2] : List Entity).length : ℤ) ∧
    (Node.new_root_node
        [Entity.mk 0 0 0 0 0 0 0 1 0.2 0.2, Entity.mk 0 0 0 0 1 1 0 1 0.2 0.2]
        0.2 1 0.2).split_dimension =
      some
        (if (xyz_distances
              [Entity.mk 0 0 0 0 0 0 0 1 0.2 0.2,
               Entity.mk 0 0 0 0 1 1 0 1 0.2 0.2]).2.2 >
            (xyz_distances
              [Entity.mk 0 0 0 0 0 0 0 1 0.2 0.2,
               Entity.mk 0 0 0 0 1 1 0 1 0.2 0.2]).2.1 ∧
            (xyz_distances
              [Entity.mk 0 0 0 0 0 0 0 1 0.2 0.2,
               Entity.mk 0 0 0 0 1 1 0 1 0.2 0.2]).2.2 >
            (xyz_distances
              [Entity.mk 0 0 0 0 0 0 0 1 0.2 0.2,
               Entity.mk 0 0 0 0 1 1 0 1 0.2 0.2]).1 then Dimension.Z
         else if (xyz_distances
              [Entity.mk 0 0 0 0 0 0 0 1 0.2 0.2,
               Entity.mk 0 0 0 0 1 1 0 1 0.2 0.2]).2.1 >
            (xyz_distances
              [Entity.mk 0 0 0 0 0 0 0 1 0.2 0.2,
               Entity.mk 0 0 0 0 1 1 0 1 0.2 0.2]).1 ∧
            (xyz_distances
              [Entity.mk 0 0 0 0 0 0 0 1 0.2 0.2,
               Entity.mk 0 0 0 0 1 1 0 1 0.2 0.2]).2.1 >
            (xyz_distances
              [Entity.mk 0 0 0 0 0 0 0 1 0.2 0.2,
               Entity.mk 0 0 0 0 1 1 0 1 0.2 0.2]).2.2 then Dimension.Y
         else Dimension.X) :=
  ⟨by norm_num,
   c8_amended_axis_selection
     [Entity.mk 0 0 0 0 0 0 0 1 0.2 0.2, Entity.mk 0 0 0 0 1 1 0 1 0.2 0.2]
     0.2 0.2 1 (by norm_num)⟩

theorem go_traverse_length (fuel : ℕ) :
    ∀ (pts : List Entity) (theta ts : ℝ) (max_pts : ℤ),
      pts.length < fuel → 1 ≤ max_pts →
      (Node.new_root_node_go fuel pts theta max_pts ts).traverse_tree_helper.length =
        pts.length := by
  induction fuel with
  | zero => intro pts _ _ _ hlt _; omega
  | succ fuel ih =>
      intro pts theta ts max_pts hlt hmp
      rw [Node.new_root_node_go]
      rcases hxyz : xyz_distances pts with ⟨xdistance, ydistance, zdistance⟩
      dsimp only
      by_cases hle : (pts.length : ℤ) ≤ max_pts
      · rw [if_pos hle]
        rw [Node.traverse_tree_helper]
        simp
      · rw [if_neg hle]
        push_neg at hle
        have hlen2 : 2 ≤ pts.length := by
          have h1 : (1 : ℤ) < (pts.length : ℤ) := lt_of_le_of_lt hmp hle
          exact_mod_cast h1
        split_ifs <;>
        · dsimp only
          simp only [Node.set_max_mins]
          rw [Node.traverse_tree_helper]
          simp only [List.nil_append, List.length_append]
          rw [ih, ih] <;>
            first
            | exact hmp
            | (simp only [List.length_take, List.length_drop,
                 find_median_index, find_median_len]
               omega)

theorem as_vec_eq_traverse (T : GravTree) :
    T.as_vec = T.root.traverse_tree_helper := by
  obtain ⟨root, n, th, mp, ts⟩ := T
  obtain ⟨sd, sv, lft, rgt, pts, com, tm, rm, xn, xm, yn, ym, zn, zm, tsn, thn⟩ := root
  rcases lft with _ | l <;> rcases rgt with _ | r <;>
    simp [GravTree.as_vec, Node.traverse_tree_helper, Node.left, Node.right,
      Node.points]

/-- C10: one `time_step` preserves the number of bodies — the bodies of the
stepped tree are as many as the bodies of the original tree (for the spec's
input contract `max_pts ≥ 1`, under which the builder's recursion
terminates). -/
theorem c10_step_preserves_count (T : GravTree) (h : 1 ≤ T.max_pts) :
    T.time_step'.as_vec.length = T.as_vec.length := by
  rw [as_vec_eq_traverse, as_vec_eq_traverse]
  simp only [GravTree.time_step', GravTree.new, Node.new_root_node]
  rw [go_traverse_length]
  · simp
  · simp
  · exact h

/-- Witness for C10 at a concrete tree. -/
theorem c10_witness :
    (1 : ℤ) ≤ (GravTree.mk (Node.new 0.2 0.2) 0 0.2 3 0.2).max_pts ∧
    (GravTree.mk (Node.new 0.2 0.2) 0 0.2 3 0.2).time_step'.as_vec.length =
      (GravTree.mk (Node.new 0.2 0.2) 0 0.2 3 0.2).as_vec.length :=
  ⟨by norm_num,
   c10_step_preserves_count (GravTree.mk (Node.new 0.2 0.2) 0 0.2 3 0.2)
     (by norm_num)⟩

/-- C9: evaluation of the reader at the failing input.  The record
`"a a a a a a a a\n"` terminates with exactly eight fields, so the reader
reaches the eight `parse().unwrap()` calls; the first field `"a"` is not
numeric, so the `unwrap` panics (modelled by `none`) instead of returning
the error value the claim promises.  By contrast a record with an invalid
field count, `"1 2 3 4 5 6 7\n"`, does return the single error value
`"Input file invalid."`. -/
theorem c9_unparseable_numeric_panics :
    GravTree.from_data_text parse_f64 "a a a a a a a a\n".data 0.2 3 0.2 =
      none ∧
    GravTree.from_data_text parse_f64 "1 2 3 4 5 6 7\n".data 0.2 3 0.2 =
      some (.error "Input file invalid.") := by
  constructor <;> rfl

end GravKd
